import Mathlib

/-
Verification development for the researcher-api-client repository.

The embedding follows src/src/main.py and src/src/poker_agent.py:
* JSON documents and Python dict access are modelled by an inductive `Json`
  with `getItem` (raising `KeyError`/`TypeError` as `PyError.otherError`).
* httpx responses, `raise_for_status`, and tenacity's
  `retry(retry_if_exception(_is_engine_busy_exception), stop_after_attempt(20),
  wait_exponential(multiplier=2, min=2, max=15), reraise=True)` are modelled
  explicitly; the retry loop is written with a fuel argument that the entry
  point sets large enough for the stop condition, so the definition is
  structurally recursive and computable.
* the asyncio semaphore / task scheduling of `_play_hand` is modelled as a
  small transition system over occupancy counts.
-/

/-- JSON values, as produced by `response.json()` and consumed by the agents. -/
inductive Json where
  | null : Json
  | bool (b : Bool) : Json
  | num (q : ℚ) : Json
  | str (s : String) : Json
  | arr (elems : List Json) : Json
  | obj (fields : List (String × Json)) : Json

/-- Python exceptions that can reach the driver: httpx.HTTPStatusError carrying
a response status code, httpx network/connection errors, and any other
`Exception` (KeyError, TypeError, strategy failure, ...). -/
inductive PyError where
  | httpStatus (status : ℕ) : PyError
  | connectError : PyError
  | otherError : PyError
deriving DecidableEq

/-- An httpx response: status code and decoded JSON body. -/
structure Response where
  status : ℕ
  body : Json

/-- `response.raise_for_status()`: httpx raises `HTTPStatusError` unless the
status is a 2xx success code. -/
def raise_for_status (r : Response) : Except PyError Response :=
  if 200 ≤ r.status ∧ r.status < 300 then .ok r else .error (.httpStatus r.status)

/-- `_is_engine_busy_exception` from main.py: an `httpx.HTTPStatusError` whose
response status is 502 (BAD_GATEWAY), 503 (SERVICE_UNAVAILABLE) or
504 (GATEWAY_TIMEOUT). -/
def _is_engine_busy_exception (e : PyError) : Bool :=
  match e with
  | .httpStatus s => s = 502 || s = 503 || s = 504
  | .connectError => false
  | .otherError => false

/-- Python subscript `j[k]`: field lookup in a dict; a missing key raises
`KeyError` and subscripting a non-dict raises `TypeError`, both plain
`Exception`s, modelled as `PyError.otherError`. -/
def getItem (j : Json) (k : String) : Except PyError Json :=
  match j with
  | .obj fields =>
      match fields.find? (fun p => p.1 = k) with
      | some p => .ok p.2
      | none => .error .otherError
  | _ => .error .otherError

/-- Python truthiness of a JSON value, as used by `while not ...`. -/
def pyTruthy (j : Json) : Bool :=
  match j with
  | .null => false
  | .bool b => b
  | .num q => q ≠ 0
  | .str s => s ≠ ""
  | .arr elems => !elems.isEmpty
  | .obj fields => !fields.isEmpty

/-- Python `x in container` for a string `x`: membership (by equality) in a
list, substring test in a string, `TypeError` otherwise. A non-string list
element never equals a string. -/
def pyContainsStr (container : Json) (x : String) : Except PyError Bool :=
  match container with
  | .arr elems => .ok (elems.any (fun j => match j with | .str t => t = x | _ => false))
  | .str s => .ok (decide (x.data <:+: s.data))
  | _ => .error .otherError

/-- Whether a JSON object has a field named `k` (a dict contains the key). -/
def Json.hasKey (j : Json) (k : String) : Bool :=
  match j with
  | .obj fields => fields.any (fun p => p.1 = k)
  | _ => false

namespace CheckCallAgent

/-- `CheckCallAgent.act` from poker_agent.py: read
`response["game_state"]["legal_actions"]`, check if `"k"` is legal else call,
and return the dict `{"action": action}` (no "amount" key). -/
def act (response : Json) : Except PyError Json :=
  (getItem response "game_state").bind fun game_state =>
  (getItem game_state "legal_actions").bind fun legal_actions =>
  (pyContainsStr legal_actions "k").map fun hasK =>
    Json.obj [("action", Json.str (if hasK then "k" else "c"))]

end CheckCallAgent

namespace AllinAgent

/-- `AllinAgent.act` from poker_agent.py: if `"b"` is in
`response["game_state"]["legal_actions"]`, bet with amount
`response["game_state"]["raise_range"]["max"]`; otherwise call with amount
`None`; return `{"action": action, "amount": amount}`. -/
def act (response : Json) : Except PyError Json :=
  (getItem response "game_state").bind fun game_state =>
  (getItem game_state "legal_actions").bind fun legal_actions =>
  (pyContainsStr legal_actions "b").bind fun hasB =>
    if hasB then
      (getItem response "game_state").bind fun gs2 =>
      (getItem gs2 "raise_range").bind fun raise_range =>
      (getItem raise_range "max").map fun amount =>
        Json.obj [("action", Json.str "b"), ("amount", amount)]
    else
      .ok (Json.obj [("action", Json.str "c"), ("amount", Json.null)])

end AllinAgent

/-- The outcome of one call of the decorated `_post_with_retry`: the final
result (the returned response, or the exception re-raised to the caller), the
number of the attempt on which the loop stopped (attempts are numbered from
1, as tenacity's `attempt_number`), and the list of back-off sleeps performed,
in order. -/
structure RetryResult where
  result : Except PyError Response
  attempts : ℕ
  sleeps : List ℚ

/-- tenacity `wait_exponential(multiplier=2, min=2, max=15)` (tenacity 8.2.2,
wait.py): the wait after the failed attempt numbered `attempt_number` is
`max(max(0, min), min(multiplier * exp_base ** (attempt_number - 1), max))`,
a fixed (jitter-free) value. -/
def wait_exponential (attempt_number : ℕ) : ℚ :=
  max (max 0 2) (min (2 * 2 ^ (attempt_number - 1)) 15)

/-- The tenacity retry loop of `_post_with_retry`, with
`retry=retry_if_exception(_is_engine_busy_exception)`,
`stop=stop_after_attempt(stopAfter)` (stop once `attempt_number ≥ stopAfter`)
and `reraise=True` (the last exception is re-raised when stopping).
`attempt n` is the result of executing the decorated body (POST then
`raise_for_status`) for the n-th time. The final `fuel` argument only makes
the recursion structural; the entry point passes `fuel = stopAfter ≥
stopAfter - attempt_number + 1`, so the fuel-0 arm is never reached. -/
def retryLoopAux (attempt : ℕ → Except PyError Response) (stopAfter : ℕ) :
    ℕ → List ℚ → ℕ → RetryResult
  | attempt_number, sleeps, 0 => ⟨.error .otherError, attempt_number, sleeps⟩
  | attempt_number, sleeps, fuel + 1 =>
    match attempt attempt_number with
    | .ok r => ⟨.ok r, attempt_number, sleeps⟩
    | .error e =>
      if _is_engine_busy_exception e = true ∧ attempt_number < stopAfter then
        retryLoopAux attempt stopAfter (attempt_number + 1)
          (sleeps ++ [wait_exponential attempt_number]) fuel
      else
        ⟨.error e, attempt_number, sleeps⟩

/-- `_post_with_retry` from main.py: the body (one POST plus
`raise_for_status`) wrapped by tenacity with `stop_after_attempt(20)`. -/
def _post_with_retry (attempt : ℕ → Except PyError Response) : RetryResult :=
  retryLoopAux attempt 20 1 [] 20

/-- One execution of the body of `_post_with_retry`: `client.post` (which may
raise a network error or return a response) followed by
`response.raise_for_status()`. `transport n` is the transport's behaviour on
the n-th POST of this logical request. -/
def postAttempt (transport : ℕ → Except PyError Response) (n : ℕ) :
    Except PyError Response :=
  (transport n).bind raise_for_status

theorem two_le_two_mul_pow (n : ℕ) : (2 : ℚ) ≤ 2 * 2 ^ n := by
  have h : (1 : ℚ) ≤ 2 ^ n := one_le_pow₀ (by norm_num)
  linarith

theorem wait_exponential_eq (n : ℕ) :
    wait_exponential n = min (2 * 2 ^ (n - 1)) 15 := by
  unfold wait_exponential
  have h2 := two_le_two_mul_pow (n - 1)
  rcases le_total (2 * 2 ^ (n - 1) : ℚ) 15 with hle | hge
  · rw [min_eq_left hle, max_eq_right (by norm_num : (0 : ℚ) ≤ 2),
      max_eq_right h2]
  · rw [min_eq_right hge, max_eq_right (by norm_num : (0 : ℚ) ≤ 2),
      max_eq_right (by norm_num : (2 : ℚ) ≤ 15)]

theorem wait_exponential_bounds (n : ℕ) :
    2 ≤ wait_exponential n ∧ wait_exponential n ≤ 15 := by
  rw [wait_exponential_eq n]
  exact ⟨le_min (two_le_two_mul_pow (n - 1)) (by norm_num), min_le_right _ _⟩

theorem retryLoop_attempts_ge (attempt : ℕ → Except PyError Response)
    (stopAfter : ℕ) :
    ∀ fuel a sleeps, a ≤ (retryLoopAux attempt stopAfter a sleeps fuel).attempts := by
  intro fuel
  induction fuel with
  | zero => intro a sleeps; simp [retryLoopAux]
  | succ n ih =>
    intro a sleeps
    cases h : attempt a with
    | ok r => simp [retryLoopAux, h]
    | error e =>
      by_cases hc : _is_engine_busy_exception e = true ∧ a < stopAfter
      · simp only [retryLoopAux, h]
        rw [if_pos hc]
        exact le_trans (Nat.le_succ a) (ih (a + 1) _)
      · simp only [retryLoopAux, h]
        rw [if_neg hc]

theorem retryLoop_ext (attempt attempt' : ℕ → Except PyError Response)
    (stopAfter : ℕ) :
    ∀ fuel a sleeps, (∀ n, a ≤ n → n < a + fuel → attempt n = attempt' n) →
      retryLoopAux attempt stopAfter a sleeps fuel =
        retryLoopAux attempt' stopAfter a sleeps fuel := by
  intro fuel
  induction fuel with
  | zero => intro a sleeps _; simp [retryLoopAux]
  | succ n ih =>
    intro a sleeps hagree
    have ha : attempt a = attempt' a := hagree a (le_refl a) (by omega)
    cases h : attempt' a with
    | ok r => simp [retryLoopAux, ha, h]
    | error e =>
      by_cases hc : _is_engine_busy_exception e = true ∧ a < stopAfter
      · simp only [retryLoopAux, ha, h]
        rw [if_pos hc, if_pos hc]
        exact ih (a + 1) _ (fun m h1 h2 => hagree m (by omega) (by omega))
      · simp only [retryLoopAux, ha, h]
        rw [if_neg hc, if_neg hc]

theorem retryLoop_all_busy (attempt : ℕ → Except PyError Response) :
    ∀ fuel a sleeps, a + fuel = 21 → 1 ≤ a → a ≤ 20 →
      (∀ n, a ≤ n → n ≤ 20 →
        ∃ e, attempt n = .error e ∧ _is_engine_busy_exception e = true) →
      (retryLoopAux attempt 20 a sleeps fuel).attempts = 20 ∧
        ∃ e, attempt 20 = .error e ∧
          (retryLoopAux attempt 20 a sleeps fuel).result = .error e := by
  intro fuel
  induction fuel with
  | zero => intro a sleeps h1 h2 h3 _; omega
  | succ n ih =>
    intro a sleeps h1 h2 h3 hbusy
    obtain ⟨e, he, hbe⟩ := hbusy a (le_refl a) h3
    by_cases ha : a < 20
    · simp only [retryLoopAux, he]
      rw [if_pos ⟨hbe, ha⟩]
      exact ih (a + 1) _ (by omega) (by omega) (by omega)
        (fun m h4 h5 => hbusy m (by omega) h5)
    · have ha20 : a = 20 := by omega
      subst ha20
      simp only [retryLoopAux, he]
      rw [if_neg (by simp)]
      exact ⟨by simp, e, by simp, by simp⟩

theorem retryLoop_success_at (attempt : ℕ → Except PyError Response)
    (k : ℕ) (r : Response) :
    ∀ fuel a sleeps, a ≤ k → k < a + fuel → k ≤ 20 →
      (∀ n, a ≤ n → n < k →
        ∃ e, attempt n = .error e ∧ _is_engine_busy_exception e = true) →
      attempt k = .ok r →
      (retryLoopAux attempt 20 a sleeps fuel).result = .ok r ∧
        (retryLoopAux attempt 20 a sleeps fuel).attempts = k := by
  intro fuel
  induction fuel with
  | zero => intro a sleeps h1 h2 h3 _ _; omega
  | succ n ih =>
    intro a sleeps h1 h2 h3 hbusy hk
    by_cases hak : a = k
    · subst hak
      simp [retryLoopAux, hk]
    · obtain ⟨e, he, hbe⟩ := hbusy a (le_refl a) (by omega)
      simp only [retryLoopAux, he]
      rw [if_pos ⟨hbe, by omega⟩]
      exact ih (a + 1) _ (by omega) (by omega) h3
        (fun m h4 h5 => hbusy m (by omega) h5) hk

theorem retryLoop_sleeps_shape (attempt : ℕ → Except PyError Response)
    (stopAfter : ℕ) :
    ∀ fuel a sleeps, ∃ k,
      (retryLoopAux attempt stopAfter a sleeps fuel).sleeps =
        sleeps ++ (List.range k).map (fun j => wait_exponential (a + j)) := by
  intro fuel
  induction fuel with
  | zero => intro a sleeps; exact ⟨0, by simp [retryLoopAux]⟩
  | succ n ih =>
    intro a sleeps
    cases h : attempt a with
    | ok r => exact ⟨0, by simp [retryLoopAux, h]⟩
    | error e =>
      by_cases hc : _is_engine_busy_exception e = true ∧ a < stopAfter
      · simp only [retryLoopAux, h]
        rw [if_pos hc]
        obtain ⟨k, hk⟩ := ih (a + 1) (sleeps ++ [wait_exponential a])
        refine ⟨k + 1, ?_⟩
        rw [hk, List.append_assoc, List.singleton_append, List.range_succ_eq_map]
        simp only [List.map_cons, List.map_map, Nat.add_zero]
        refine congrArg (sleeps ++ ·) (congrArg (wait_exponential a :: ·) ?_)
        refine List.map_congr_left (fun j _ => ?_)
        simp only [Function.comp_apply]
        exact congrArg wait_exponential (by omega)
      · simp only [retryLoopAux, h]
        rw [if_neg hc]
        exact ⟨0, by simp⟩

/-- The body of `_play_hand`'s `try` block, from main.py:
`response = await self._create_new_hand(); hand_id = response["hand_id"];
while not response["game_state"]["is_hand_over"]: response = await
self._act(hand_id, response); return True`. `create` is the behaviour of
`_create_new_hand` (its decoded JSON, or the exception it raises); `act`
maps the current response to `_act`'s decoded JSON (agent call, POST with
retry, `.json()`), or the exception it raises. The source loop has no
iteration bound, so the model takes a `fuel` bound; `none` means the hand
was still unfinished after `fuel` turns. -/
def handLoop (act : Json → Except PyError Json) :
    Json → ℕ → Option (Except PyError Bool)
  | _, 0 => none
  | response, fuel + 1 =>
    match (getItem response "game_state").bind fun gs =>
        (getItem gs "is_hand_over").map pyTruthy with
    | .error e => some (.error e)
    | .ok true => some (.ok true)
    | .ok false =>
      match act response with
      | .error e => some (.error e)
      | .ok response2 => handLoop act response2 fuel

def handBody (create : Except PyError Json) (act : Json → Except PyError Json)
    (fuel : ℕ) : Option (Except PyError Bool) :=
  match create with
  | .error e => some (.error e)
  | .ok response =>
    match getItem response "hand_id" with
    | .error e => some (.error e)
    | .ok _ => handLoop act response fuel

/-- `_play_hand` from main.py: the try-block body with
`except httpx.HTTPStatusError: return False` and
`except Exception: return False` around it. Both handlers log and return
`False`; no exception escapes. -/
def _play_hand (create : Except PyError Json) (act : Json → Except PyError Json)
    (fuel : ℕ) : Option Bool :=
  match handBody create act fuel with
  | none => none
  | some (.ok b) => some b
  | some (.error _) => some false

/-- The summary printed by `AgentRunner.run`: successful hands, failed hands
and average seconds per hand. -/
structure RunSummary where
  successful_hands : ℕ
  failed_hands : ℕ
  seconds_per_hand : ℚ

/-- `AgentRunner.run` from main.py: spawn `num_hands` copies of
`_play_hand()`, collect their boolean results as `tqdm.as_completed` yields
them (`completionOrder` lists the hand indices in completion order;
as_completed yields every spawned hand exactly once, i.e. `completionOrder`
is a permutation of `range num_hands`), then compute
`successful_hands = sum(results)`,
`failed_hands = len(results) - successful_hands`, and
`seconds_per_hand = duration / num_hands if num_hands > 0 else 0`. -/
def run (num_hands : ℕ) (handResult : ℕ → Bool) (completionOrder : List ℕ)
    (duration : ℚ) : RunSummary :=
  let results := completionOrder.map handResult
  let successful_hands := results.count true
  let failed_hands := results.length - successful_hands
  let seconds_per_hand : ℚ :=
    if 0 < num_hands then duration / (num_hands : ℚ) else 0
  ⟨successful_hands, failed_hands, seconds_per_hand⟩

/-- The two registered agents. -/
inductive AgentKind where
  | allin : AgentKind
  | checkcall : AgentKind
deriving DecidableEq

/-- `_AGENTS` from main.py: the agent registry keyed by lower-case name. -/
def _AGENTS : List (String × AgentKind) :=
  [("allin", AgentKind.allin), ("checkcall", AgentKind.checkcall)]

/-- Python `str.lower()` on one character (the registry keys and the claim's
inputs are ASCII). -/
def pyLowerChar (c : Char) : Char :=
  if c.isUpper then Char.ofNat (c.toNat + 32) else c

/-- Python `str.lower()`. -/
def pyLower (s : String) : String := ⟨s.data.map pyLowerChar⟩

/-- What `main` from main.py does before any hand is played. -/
structure MainTrace where
  clientConstructed : Bool
  result : Except String AgentKind

/-- `main` from main.py up to the construction of the transport client:
`agent_class = _AGENTS.get(agent.lower())`; if the lookup misses, raise
`ValueError` — `AgentRunner.from_config` (which builds the httpx client) is
only reached on a hit. -/
def mainConfig (agent : String) : MainTrace :=
  match (_AGENTS.find? (fun p => p.1 = pyLower agent)).map (fun p => p.2) with
  | none => ⟨false, .error ("Unknown agent: " ++ agent ++ ". Available: allin, checkcall")⟩
  | some agent_class => ⟨true, .ok agent_class⟩

/-- `_MAX_CONCURRENT_HANDS` from main.py. -/
def _MAX_CONCURRENT_HANDS : ℕ := 5

/-- The scheduler state of one `run`: the internal counter of
`asyncio.Semaphore(_MAX_CONCURRENT_HANDS)` plus the number of driver tasks in
each phase of `_play_hand`. A task is `waiting` once started and suspended on
`async with self._semaphore`, `holding` between acquiring the slot and
leaving the `async with` block (i.e. between session creation and
terminal-or-abandoned state), and done once `_play_hand` has returned its
boolean. -/
structure SchedState where
  sem : ℕ
  notStartedTasks : ℕ
  waitingTasks : ℕ
  holdingTasks : ℕ
  doneSuccessTasks : ℕ
  doneFailedTasks : ℕ
deriving DecidableEq

/-- The state at the start of `run num_hands`: the semaphore counter is
`_MAX_CONCURRENT_HANDS` and all `num_hands` spawned tasks are not started. -/
def initSched (num_hands : ℕ) : SchedState :=
  ⟨_MAX_CONCURRENT_HANDS, num_hands, 0, 0, 0, 0⟩

/-- The event-loop transitions of `run` / `_play_hand`:
a spawned task starts and reaches `async with self._semaphore`; a waiting
task acquires a free slot (semaphore counter decremented); a holding task
finishes — returning `True`, or catching an exception and returning
`False` — and in both cases the `async with` exit releases the slot
(semaphore counter incremented on every exit path of the guarded region). -/
inductive SchedStep : SchedState → SchedState → Prop where
  | start (s : SchedState) : 0 < s.notStartedTasks →
      SchedStep s { s with notStartedTasks := s.notStartedTasks - 1,
                           waitingTasks := s.waitingTasks + 1 }
  | acquire (s : SchedState) : 0 < s.waitingTasks → 0 < s.sem →
      SchedStep s { s with waitingTasks := s.waitingTasks - 1,
                           holdingTasks := s.holdingTasks + 1,
                           sem := s.sem - 1 }
  | finishSuccess (s : SchedState) : 0 < s.holdingTasks →
      SchedStep s { s with holdingTasks := s.holdingTasks - 1,
                           doneSuccessTasks := s.doneSuccessTasks + 1,
                           sem := s.sem + 1 }
  | finishFailure (s : SchedState) : 0 < s.holdingTasks →
      SchedStep s { s with holdingTasks := s.holdingTasks - 1,
                           doneFailedTasks := s.doneFailedTasks + 1,
                           sem := s.sem + 1 }

/-- States reachable during a run of `num_hands` hands. -/
def SchedReachable (num_hands : ℕ) (s : SchedState) : Prop :=
  Relation.ReflTransGen SchedStep (initSched num_hands) s

/-- The jitter the spec describes for the back-off sleep.
Modelled from the spec: "the actual sleep is drawn uniformly at random from
[1.0, base_delay]" — a uniform draw `u ∈ [0, 1]` mapped affinely onto
`[1.0, base_delay]`, where `base_delay = min(2.0 * 2^i, 15.0)` for retry
attempt index `i`. The source's `wait_exponential` takes no random input at
all, so this is the spec side of a refinement comparison only. -/
def claimedJitterSleep (i : ℕ) (u : ℚ) : ℚ :=
  1 + u * (min (2 * 2 ^ i) 15 - 1)

theorem retryLoop_first_not_busy (attempt : ℕ → Except PyError Response)
    (stopAfter a fuel : ℕ) (sleeps : List ℚ) (e : PyError) (hfuel : 0 < fuel)
    (h : attempt a = .error e) (hb : _is_engine_busy_exception e = false) :
    retryLoopAux attempt stopAfter a sleeps fuel = ⟨.error e, a, sleeps⟩ := by
  cases fuel with
  | zero => omega
  | succ n =>
    simp only [retryLoopAux, h]
    rw [if_neg (by simp [hb])]

theorem retryLoop_first_busy_recurses (attempt : ℕ → Except PyError Response)
    (stopAfter a fuel : ℕ) (sleeps : List ℚ) (e : PyError) (hfuel : 0 < fuel)
    (hlt : a < stopAfter) (h : attempt a = .error e)
    (hb : _is_engine_busy_exception e = true) :
    retryLoopAux attempt stopAfter a sleeps fuel =
      retryLoopAux attempt stopAfter (a + 1)
        (sleeps ++ [wait_exponential a]) (fuel - 1) := by
  cases fuel with
  | zero => omega
  | succ n =>
    simp only [retryLoopAux, h]
    rw [if_pos ⟨hb, hlt⟩]
    simp

/-- C2: the retrying request executor retries a failed request if and only if
the raised error is an HTTP status error with status 502, 503 or 504; every
other non-2xx status and every network/connection error propagates to the
caller immediately, with zero retry attempts and zero sleeps. -/
theorem retry_iff_busy_status :
    (∀ s : ℕ, _is_engine_busy_exception (.httpStatus s) = true ↔
      (s = 502 ∨ s = 503 ∨ s = 504)) ∧
    _is_engine_busy_exception .connectError = false ∧
    _is_engine_busy_exception .otherError = false ∧
    (∀ (attempt : ℕ → Except PyError Response) (e : PyError),
      attempt 1 = .error e → _is_engine_busy_exception e = false →
      _post_with_retry attempt = ⟨.error e, 1, []⟩) ∧
    (∀ (attempt : ℕ → Except PyError Response) (e : PyError),
      attempt 1 = .error e → _is_engine_busy_exception e = true →
      2 ≤ (_post_with_retry attempt).attempts) := by
  refine ⟨?_, rfl, rfl, ?_, ?_⟩
  · intro s
    simp [_is_engine_busy_exception, or_assoc]
  · intro attempt e h hb
    exact retryLoop_first_not_busy attempt 20 1 20 [] e (by norm_num) h hb
  · intro attempt e h hb
    unfold _post_with_retry
    rw [retryLoop_first_busy_recurses attempt 20 1 20 [] e (by norm_num)
      (by norm_num) h hb]
    exact retryLoop_attempts_ge attempt 20 (20 - 1) 2 _

/-- C2 witness: a transport returning a terminal 400 on the first call makes
the executor raise the 400 immediately, with a single attempt and no sleeps;
400 is not classified busy while 502/503/504 are and network errors are not. -/
theorem retry_iff_busy_status_witness :
    _post_with_retry (postAttempt (fun _ => .ok ⟨400, Json.null⟩)) =
      ⟨.error (.httpStatus 400), 1, []⟩ ∧
    _is_engine_busy_exception (.httpStatus 400) = false ∧
    _is_engine_busy_exception (.httpStatus 503) = true := by
  refine ⟨?_, rfl, rfl⟩
  exact retry_iff_busy_status.2.2.2.1 (postAttempt (fun _ => .ok ⟨400, Json.null⟩))
    (.httpStatus 400) rfl rfl

/-- C3: when every attempt fails with a retryable server-busy status, the
executor makes exactly 20 attempts, re-raises the error of the 20th attempt,
and the outcome never depends on what any attempt after the 20th would do;
when some attempt k < 20 succeeds after busy failures, the success is
returned to the caller on attempt k. -/
theorem retry_attempt_cap :
    (∀ attempt : ℕ → Except PyError Response,
      (∀ n, 1 ≤ n → n ≤ 20 →
        ∃ e, attempt n = .error e ∧ _is_engine_busy_exception e = true) →
      (_post_with_retry attempt).attempts = 20 ∧
        ∃ e, attempt 20 = .error e ∧
          (_post_with_retry attempt).result = .error e) ∧
    (∀ attempt attempt' : ℕ → Except PyError Response,
      (∀ n, n ≤ 20 → attempt n = attempt' n) →
      _post_with_retry attempt = _post_with_retry attempt') ∧
    (∀ (attempt : ℕ → Except PyError Response) (k : ℕ) (r : Response),
      1 ≤ k → k < 20 →
      (∀ n, 1 ≤ n → n < k →
        ∃ e, attempt n = .error e ∧ _is_engine_busy_exception e = true) →
      attempt k = .ok r →
      (_post_with_retry attempt).result = .ok r ∧
        (_post_with_retry attempt).attempts = k) := by
  refine ⟨?_, ?_, ?_⟩
  · intro attempt hbusy
    exact retryLoop_all_busy attempt 20 1 [] (by norm_num) (by norm_num)
      (by norm_num) hbusy
  · intro attempt attempt' hagree
    exact retryLoop_ext attempt attempt' 20 20 1 []
      (fun n h1 h2 => hagree n (by omega))
  · intro attempt k r h1 h2 hbusy hk
    exact retryLoop_success_at attempt k r 20 1 [] h1 (by omega) (by omega)
      hbusy hk

/-- C3 witness: a transport answering 503 on every attempt exhausts exactly 20
attempts and the 503 is re-raised; a transport answering 503 twice then
succeeding returns the success on attempt 3. -/
theorem retry_attempt_cap_witness :
    (_post_with_retry (fun _ => .error (.httpStatus 503))).attempts = 20 ∧
    (_post_with_retry (fun n => if n < 3 then .error (.httpStatus 503)
        else .ok ⟨200, Json.null⟩)).attempts = 3 := by
  constructor
  · exact (retry_attempt_cap.1 (fun _ => .error (.httpStatus 503))
      (fun n h1 h2 => ⟨.httpStatus 503, rfl, rfl⟩)).1
  · exact (retry_attempt_cap.2.2
      (fun n => if n < 3 then .error (.httpStatus 503) else .ok ⟨200, Json.null⟩)
      3 ⟨200, Json.null⟩ (by norm_num) (by norm_num)
      (fun n hn1 hn2 => ⟨.httpStatus 503, by simp [hn2], rfl⟩) (by simp)).2

/-- C4 counterexample: the claim says the sleep before retry attempt index 0
is drawn uniformly at random from [1.0, base_delay] = [1.0, 2.0]; with a
transport answering 503 on every attempt, the executor's first sleep is the
fixed value `wait_exponential 1 = 2` on every execution — the wait function
takes no random input — whereas the claimed uniform draw at u = 1/2 would
sleep 3/2 ≠ 2. -/
theorem backoff_jitter_counterexample :
    (_post_with_retry (postAttempt (fun _ => .ok ⟨503, Json.null⟩))).sleeps.get? 0 =
      some (wait_exponential 1) ∧
    wait_exponential 1 = 2 ∧
    claimedJitterSleep 0 (1 / 2) = 3 / 2 ∧
    (2 : ℚ) ≠ 3 / 2 := by
  refine ⟨rfl, ?_, ?_, by norm_num⟩
  · rw [wait_exponential_eq 1]
    norm_num
  · unfold claimedJitterSleep
    norm_num

/-- C4 (amended): for every retry attempt with index i (starting at 0) the
executor sleeps for exactly the base delay min(2.0 * 2^i, 15.0), a
deterministic value with no jitter; in particular every sleep duration is
non-negative and at most 15 seconds. -/
theorem backoff_schedule_deterministic (attempt : ℕ → Except PyError Response)
    (i : ℕ) (w : ℚ)
    (h : (_post_with_retry attempt).sleeps.get? i = some w) :
    w = min (2 * 2 ^ i) 15 ∧ 0 ≤ w ∧ w ≤ 15 := by
  obtain ⟨k, hk⟩ := retryLoop_sleeps_shape attempt 20 20 1 []
  unfold _post_with_retry at h
  rw [hk] at h
  simp only [List.nil_append, List.get?_map] at h
  have hik : i < k := by
    by_contra hik
    rw [List.get?_eq_none.mpr (by simpa using hik)] at h
    simp at h
  rw [List.get?_range hik] at h
  simp only [Option.map_some'] at h
  have hw : w = wait_exponential (1 + i) := (Option.some.injEq _ _).mp h.symm
  have heq : wait_exponential (1 + i) = min (2 * 2 ^ i) 15 := by
    have hidx : 1 + i - 1 = i := by omega
    rw [wait_exponential_eq (1 + i), hidx]
  obtain ⟨hb1, hb2⟩ := wait_exponential_bounds (1 + i)
  refine ⟨by rw [hw, heq], by rw [hw]; linarith, by rw [hw]; exact hb2⟩

/-- C4 witness: on a transport answering 503 on every attempt, the sleep at
retry index 0 equals min(2*2^0, 15) = 2 and is within [0, 15]. -/
theorem backoff_schedule_deterministic_witness :
    wait_exponential 1 = min (2 * 2 ^ (0 : ℕ)) 15 ∧
      (0 : ℚ) ≤ wait_exponential 1 ∧ wait_exponential 1 ≤ 15 :=
  backoff_schedule_deterministic (postAttempt (fun _ => .ok ⟨503, Json.null⟩)) 0
    (wait_exponential 1) rfl

/-- C1: in every state reachable during a run of any number of hands, at most
`_MAX_CONCURRENT_HANDS` (= 5) driver tasks hold a gate slot — at most 5
sessions are between session creation and terminal-or-abandoned state — and
the semaphore counter plus the held slots is always exactly the capacity,
because both exit paths of the guarded region (success and failure) release
the slot. -/
theorem sched_step_preserves_slots (s s' : SchedState) (hstep : SchedStep s s')
    (h : s.sem + s.holdingTasks = _MAX_CONCURRENT_HANDS) :
    s'.sem + s'.holdingTasks = _MAX_CONCURRENT_HANDS := by
  cases hstep with
  | start h1 => exact h
  | acquire h1 h2 =>
    show s.sem - 1 + (s.holdingTasks + 1) = _MAX_CONCURRENT_HANDS
    omega
  | finishSuccess h1 =>
    show s.sem + 1 + (s.holdingTasks - 1) = _MAX_CONCURRENT_HANDS
    omega
  | finishFailure h1 =>
    show s.sem + 1 + (s.holdingTasks - 1) = _MAX_CONCURRENT_HANDS
    omega

theorem gate_capacity_invariant (num_hands : ℕ) (s : SchedState)
    (h : SchedReachable num_hands s) :
    s.holdingTasks ≤ _MAX_CONCURRENT_HANDS ∧
      s.sem + s.holdingTasks = _MAX_CONCURRENT_HANDS := by
  have key : s.sem + s.holdingTasks = _MAX_CONCURRENT_HANDS := by
    induction h with
    | refl => rfl
    | tail hsteps hstep ih => exact sched_step_preserves_slots _ _ hstep ih
  exact ⟨by omega, key⟩

/-- C1 witness: after starting one of three spawned tasks and letting it
acquire a slot, the reached state holds one slot, at most the capacity, and
the slot accounting is exact. -/
theorem gate_capacity_invariant_witness :
    (⟨4, 2, 0, 1, 0, 0⟩ : SchedState).holdingTasks ≤ _MAX_CONCURRENT_HANDS ∧
      (⟨4, 2, 0, 1, 0, 0⟩ : SchedState).sem +
        (⟨4, 2, 0, 1, 0, 0⟩ : SchedState).holdingTasks = _MAX_CONCURRENT_HANDS :=
  gate_capacity_invariant 3 ⟨4, 2, 0, 1, 0, 0⟩
    (Relation.ReflTransGen.tail
      (Relation.ReflTransGen.tail Relation.ReflTransGen.refl
        (SchedStep.start (initSched 3) (by decide)))
      (SchedStep.acquire ⟨5, 2, 1, 0, 0, 0⟩ (by decide) (by decide)))

/-- C5: for every hand count N the orchestrator spawns N driver tasks and
collects one boolean per task in completion order (a permutation of the
spawned hands, with no short-circuit on failure), so it collects exactly N
outcomes; the reported successful count is the number of true outcomes, the
failed count is N minus the successful count, and they sum to N. -/
theorem run_collects_all_outcomes (num_hands : ℕ) (handResult : ℕ → Bool)
    (completionOrder : List ℕ) (duration : ℚ)
    (hperm : completionOrder.Perm (List.range num_hands)) :
    (completionOrder.map handResult).length = num_hands ∧
    (run num_hands handResult completionOrder duration).successful_hands =
      ((List.range num_hands).map handResult).count true ∧
    (run num_hands handResult completionOrder duration).failed_hands =
      num_hands -
        (run num_hands handResult completionOrder duration).successful_hands ∧
    (run num_hands handResult completionOrder duration).successful_hands +
      (run num_hands handResult completionOrder duration).failed_hands =
        num_hands := by
  have hlen : (completionOrder.map handResult).length = num_hands := by
    simp [hperm.length_eq]
  have hcount : (completionOrder.map handResult).count true =
      ((List.range num_hands).map handResult).count true :=
    (hperm.map handResult).count_eq true
  have hle : (completionOrder.map handResult).count true ≤
      (completionOrder.map handResult).length :=
    List.count_le_length _ _
  refine ⟨hlen, hcount, ?_, ?_⟩
  · show (completionOrder.map handResult).length -
      (completionOrder.map handResult).count true =
        num_hands - (completionOrder.map handResult).count true
    rw [hlen]
  · show (completionOrder.map handResult).count true +
      ((completionOrder.map handResult).length -
        (completionOrder.map handResult).count true) = num_hands
    omega

/-- C5 witness: two hands, one succeeding and one failing, collected in
reversed completion order, give one successful and one failed outcome. -/
theorem run_collects_all_outcomes_witness :
    ([1, 0].map (fun n => n == 0)).length = 2 ∧
    (run 2 (fun n => n == 0) [1, 0] 7).successful_hands =
      ((List.range 2).map (fun n => n == 0)).count true ∧
    (run 2 (fun n => n == 0) [1, 0] 7).failed_hands =
      2 - (run 2 (fun n => n == 0) [1, 0] 7).successful_hands ∧
    (run 2 (fun n => n == 0) [1, 0] 7).successful_hands +
      (run 2 (fun n => n == 0) [1, 0] 7).failed_hands = 2 :=
  run_collects_all_outcomes 2 (fun n => n == 0) [1, 0] 7 (by decide)

/-- C6: every exception raised inside a session's driver task is caught at
the driver boundary and converted into a `false` outcome; whenever the body
terminates, `_play_hand` returns a boolean and never re-raises, so no
per-session exception reaches the orchestrator. -/
theorem play_hand_absorbs_exceptions (create : Except PyError Json)
    (act : Json → Except PyError Json) (fuel : ℕ) :
    (∀ e : PyError, handBody create act fuel = some (.error e) →
      _play_hand create act fuel = some false) ∧
    (∀ o : Except PyError Bool, handBody create act fuel = some o →
      ∃ b : Bool, _play_hand create act fuel = some b) := by
  constructor
  · intro e he
    unfold _play_hand
    rw [he]
  · intro o ho
    unfold _play_hand
    rw [ho]
    cases o with
    | error e => exact ⟨false, rfl⟩
    | ok b => exact ⟨b, rfl⟩

/-- C6 witness: a driver whose session creation raises a terminal 400 yields
the outcome `false`, and a driver whose first action raises a strategy /
malformed-response error also yields `false`. -/
theorem play_hand_absorbs_exceptions_witness :
    _play_hand (.error (.httpStatus 400)) (fun _ => .ok Json.null) 3 =
      some false ∧
    _play_hand
      (.ok (Json.obj [("hand_id", Json.num 1), ("game_state",
        Json.obj [("is_hand_over", Json.bool false)])]))
      (fun _ => .error .otherError) 3 = some false := by
  constructor
  · exact (play_hand_absorbs_exceptions (.error (.httpStatus 400))
      (fun _ => .ok Json.null) 3).1 (.httpStatus 400) rfl
  · exact (play_hand_absorbs_exceptions _ (fun _ => .error .otherError) 3).1
      .otherError rfl

/-- C8: a run with zero hands reports zero successful and zero failed
outcomes and its average-seconds-per-hand takes the guarded branch yielding
0 for every duration, so `duration / 0` is never computed. -/
theorem zero_hands_no_division (handResult : ℕ → Bool)
    (completionOrder : List ℕ) (duration : ℚ)
    (hperm : completionOrder.Perm (List.range 0)) :
    run 0 handResult completionOrder duration =
      ⟨0, 0, 0⟩ := by
  have hnil : completionOrder = [] := by simpa using hperm.eq_nil
  subst hnil
  simp [run]

/-- C8 witness: the zero-hand run with any particular duration reports the
all-zero summary. -/
theorem zero_hands_no_division_witness :
    run 0 (fun _ => true) [] 42 = ⟨0, 0, 0⟩ :=
  zero_hands_no_division (fun _ => true) [] 42 (by decide)

theorem checkcall_act_ok_shape (response req : Json)
    (h : CheckCallAgent.act response = .ok req) :
    req = Json.obj [("action", Json.str "k")] ∨
      req = Json.obj [("action", Json.str "c")] := by
  unfold CheckCallAgent.act at h
  cases h1 : getItem response "game_state" with
  | error e => rw [h1] at h; simp [Except.bind] at h
  | ok gs =>
    rw [h1] at h
    simp only [Except.bind] at h
    cases h2 : getItem gs "legal_actions" with
    | error e => rw [h2] at h; simp [Except.bind] at h
    | ok la =>
      rw [h2] at h
      simp only [Except.bind] at h
      cases h3 : pyContainsStr la "k" with
      | error e => rw [h3] at h; simp [Except.map] at h
      | ok hasK =>
        rw [h3] at h
        cases hasK with
        | true =>
          simp only [Except.map, if_true, Except.ok.injEq] at h
          exact Or.inl h.symm
        | false =>
          simp only [Except.map, Bool.false_eq_true, if_false,
            Except.ok.injEq] at h
          exact Or.inr h.symm

theorem allin_act_ok_shape (response req : Json)
    (h : AllinAgent.act response = .ok req) :
    (∃ amount, req = Json.obj [("action", Json.str "b"), ("amount", amount)]) ∨
      req = Json.obj [("action", Json.str "c"), ("amount", Json.null)] := by
  unfold AllinAgent.act at h
  cases h1 : getItem response "game_state" with
  | error e => rw [h1] at h; simp [Except.bind] at h
  | ok gs =>
    rw [h1] at h
    simp only [Except.bind] at h
    cases h2 : getItem gs "legal_actions" with
    | error e => rw [h2] at h; simp [Except.bind] at h
    | ok la =>
      rw [h2] at h
      simp only [Except.bind] at h
      cases h3 : pyContainsStr la "b" with
      | error e => rw [h3] at h; simp [Except.bind] at h
      | ok hasB =>
        rw [h3] at h
        cases hasB with
        | false =>
          simp only [Except.bind, Bool.false_eq_true, if_false,
            Except.ok.injEq] at h
          exact Or.inr h.symm
        | true =>
          simp only [Except.bind, if_true] at h
          cases h4 : getItem gs "raise_range" with
          | error e => rw [h4] at h; simp [Except.bind] at h
          | ok rr =>
            rw [h4] at h
            simp only [Except.bind] at h
            cases h5 : getItem rr "max" with
            | error e => rw [h5] at h; simp [Except.map] at h
            | ok amount =>
              rw [h5] at h
              simp only [Except.map, Except.ok.injEq] at h
              exact Or.inl ⟨amount, h.symm⟩

/-- C7 counterexample: on the legal game state with legal_actions = ["k","c"],
the checkcall strategy submits the body `{"action": "k"}`, which has no
"amount" field — so not every Action body of either strategy carries an
"amount" field. -/
theorem action_body_fields_counterexample :
    CheckCallAgent.act (Json.obj [("game_state", Json.obj [("legal_actions",
        Json.arr [Json.str "k", Json.str "c"])])]) =
      .ok (Json.obj [("action", Json.str "k")]) ∧
    Json.hasKey (Json.obj [("action", Json.str "k")]) "amount" = false :=
  ⟨rfl, rfl⟩

/-- C7 (amended): every Action body either strategy submits to the act
endpoint is a JSON object with an "action" field whose value is one of "k",
"c", "b"; the allin strategy's bodies additionally always carry an "amount"
field (null when calling, the state's raise_range "max" when betting), while
the checkcall strategy's bodies carry no "amount" field at all. -/
theorem action_bodies_have_action_field (response req : Json) :
    (AllinAgent.act response = .ok req →
      req.hasKey "action" = true ∧ req.hasKey "amount" = true ∧
      (getItem req "action" = .ok (Json.str "b") ∨
        getItem req "action" = .ok (Json.str "c"))) ∧
    (CheckCallAgent.act response = .ok req →
      req.hasKey "action" = true ∧ req.hasKey "amount" = false ∧
      (getItem req "action" = .ok (Json.str "k") ∨
        getItem req "action" = .ok (Json.str "c"))) := by
  constructor
  · intro h
    rcases allin_act_ok_shape response req h with ⟨amount, rfl⟩ | rfl
    · exact ⟨rfl, rfl, Or.inl rfl⟩
    · exact ⟨rfl, rfl, Or.inr rfl⟩
  · intro h
    rcases checkcall_act_ok_shape response req h with rfl | rfl
    · exact ⟨rfl, rfl, Or.inl rfl⟩
    · exact ⟨rfl, rfl, Or.inr rfl⟩

/-- C7 witness: on a state where betting is illegal, the allin strategy's
body has both fields, with action "c". -/
theorem action_bodies_have_action_field_witness :
    (Json.obj [("action", Json.str "c"), ("amount", Json.null)]).hasKey
        "action" = true ∧
      (Json.obj [("action", Json.str "c"), ("amount", Json.null)]).hasKey
        "amount" = true ∧
      (getItem (Json.obj [("action", Json.str "c"), ("amount", Json.null)])
          "action" = .ok (Json.str "b") ∨
        getItem (Json.obj [("action", Json.str "c"), ("amount", Json.null)])
          "action" = .ok (Json.str "c")) :=
  (action_bodies_have_action_field
    (Json.obj [("game_state", Json.obj [("legal_actions",
      Json.arr [Json.str "k", Json.str "c"])])])
    (Json.obj [("action", Json.str "c"), ("amount", Json.null)])).1 rfl

/-- C10: whenever "b" is not among the legal actions the allin strategy
returns exactly `{"action": "c", "amount": null}` — falling back to call,
never to check, whatever else is legal — and whenever "b" is legal it
returns `{"action": "b"}` with amount equal to raise_range's "max". -/
theorem allin_fallback_and_max_bet (response game_state legal_actions : Json)
    (h1 : getItem response "game_state" = .ok game_state)
    (h2 : getItem game_state "legal_actions" = .ok legal_actions) :
    (pyContainsStr legal_actions "b" = .ok false →
      AllinAgent.act response =
        .ok (Json.obj [("action", Json.str "c"), ("amount", Json.null)])) ∧
    (∀ raise_range amount : Json,
      pyContainsStr legal_actions "b" = .ok true →
      getItem game_state "raise_range" = .ok raise_range →
      getItem raise_range "max" = .ok amount →
      AllinAgent.act response =
        .ok (Json.obj [("action", Json.str "b"), ("amount", amount)])) := by
  constructor
  · intro hb
    unfold AllinAgent.act
    rw [h1]
    simp only [Except.bind]
    rw [h2]
    simp only [Except.bind]
    rw [hb]
    simp [Except.bind]
  · intro raise_range amount hb h3 h4
    unfold AllinAgent.act
    rw [h1]
    simp only [Except.bind]
    rw [h2]
    simp only [Except.bind]
    rw [hb]
    simp only [Except.bind, if_true]
    rw [h3]
    simp only [Except.bind]
    rw [h4]
    simp [Except.map]

/-- C10 witness: with legal_actions = ["k","c"] the allin strategy calls with
null amount (even though check is legal); with legal_actions = ["b","c"] and
raise_range max = 100 it bets 100. -/
theorem allin_fallback_and_max_bet_witness :
    AllinAgent.act (Json.obj [("game_state", Json.obj [("legal_actions",
        Json.arr [Json.str "k", Json.str "c"])])]) =
      .ok (Json.obj [("action", Json.str "c"), ("amount", Json.null)]) ∧
    AllinAgent.act (Json.obj [("game_state", Json.obj [
        ("legal_actions", Json.arr [Json.str "b", Json.str "c"]),
        ("raise_range", Json.obj [("min", Json.num 2),
          ("max", Json.num 100)])])]) =
      .ok (Json.obj [("action", Json.str "b"), ("amount", Json.num 100)]) := by
  constructor
  · exact (allin_fallback_and_max_bet
      (Json.obj [("game_state", Json.obj [("legal_actions",
        Json.arr [Json.str "k", Json.str "c"])])])
      (Json.obj [("legal_actions", Json.arr [Json.str "k", Json.str "c"])])
      (Json.arr [Json.str "k", Json.str "c"]) rfl rfl).1 rfl
  · exact (allin_fallback_and_max_bet
      (Json.obj [("game_state", Json.obj [
        ("legal_actions", Json.arr [Json.str "b", Json.str "c"]),
        ("raise_range", Json.obj [("min", Json.num 2),
          ("max", Json.num 100)])])])
      (Json.obj [("legal_actions", Json.arr [Json.str "b", Json.str "c"]),
        ("raise_range", Json.obj [("min", Json.num 2),
          ("max", Json.num 100)])])
      (Json.arr [Json.str "b", Json.str "c"]) rfl rfl).2
      (Json.obj [("min", Json.num 2), ("max", Json.num 100)])
      (Json.num 100) rfl rfl rfl

/-- C9: the agent-name lookup in `main` is case-insensitive — the
configuration is accepted exactly when the lower-cased name is "allin" or
"checkcall" — and on any other name the ValueError is raised with the
transport client never constructed. -/
theorem agent_lookup_case_insensitive (agent : String) :
    ((mainConfig agent).result.isOk = true ↔
      (pyLower agent = "allin" ∨ pyLower agent = "checkcall")) ∧
    ((mainConfig agent).result.isOk = false →
      (mainConfig agent).clientConstructed = false) := by
  unfold mainConfig _AGENTS
  by_cases ha : "allin" = pyLower agent
  · simp [List.find?, ← ha, Except.isOk, Except.toBool]
  · by_cases hc : "checkcall" = pyLower agent
    · have ha' : ¬ pyLower agent = "allin" := fun h => ha h.symm
      simp [List.find?, ← hc, ha, ha', Except.isOk, Except.toBool]
    · have ha' : ¬ pyLower agent = "allin" := fun h => ha h.symm
      have hc' : ¬ pyLower agent = "checkcall" := fun h => hc h.symm
      simp [List.find?, ha, hc, ha', hc', Except.isOk, Except.toBool]

/-- C9 witness: "AllIn" and "CHECKCALL" are accepted, and on "human" the
lookup fails with the client not constructed. -/
theorem agent_lookup_case_insensitive_witness :
    (mainConfig "AllIn").result.isOk = true ∧
    (mainConfig "CHECKCALL").result.isOk = true ∧
    (mainConfig "human").clientConstructed = false := by
  refine ⟨?_, ?_, ?_⟩
  · exact (agent_lookup_case_insensitive "AllIn").1.mpr (Or.inl (by decide))
  · exact (agent_lookup_case_insensitive "CHECKCALL").1.mpr
      (Or.inr (by decide))
  · exact (agent_lookup_case_insensitive "human").2 (by decide)
